import Mathlib

/-!
Verification development for the layered calendar planner.

The zustand store (`appStore`) is embedded as pure state-transition
functions on an explicit `AppState`; the calendar-canvas coordinate
mapper and the PDF-export curve flattening are embedded as pure
functions over `ℚ` (JavaScript numbers are modelled as rationals,
ISO date strings as day numbers `Nat`, `Date.now()` timestamps are
passed in as an explicit `now : Nat` argument).
-/

namespace Planbook

/-- `SyncOperation.type` in `types` (create | update | delete). -/
inductive OpType
  | create
  | update
  | delete
deriving DecidableEq

/-- The four content layers of the store. -/
inductive Layer
  | events
  | decorations
  | handwriting
  | tasks
deriving DecidableEq

/-- `viewMode` of the store: the store's own annotation in `appStore`
is `'monthly' | 'weekly'` (the `ViewMode` alias exported by the types
module in `part_000` adds an unused `'daily'`). -/
inductive ViewMode
  | monthly
  | weekly
deriving DecidableEq

/-- `DecorativeElement.type`: 'sticker' | 'shape' | 'text'. -/
inductive DecorationType
  | sticker
  | shape
  | text
deriving DecidableEq

/-- `CalendarEvent.sourceCalendar`:
'google' | 'apple' | 'outlook' | 'native'. -/
inductive CalendarSource
  | google
  | apple
  | outlook
  | native
deriving DecidableEq

/-- `TaskItem.priority`: 'low' | 'medium' | 'high'. -/
inductive TaskPriority
  | low
  | medium
  | high
deriving DecidableEq

/-- `Position` as declared in the types module (`part_000`): `dateX`
(an ISO date string used for coordinate-based positioning, modelled as
a day number), `offsetY` (sub-cell pixel offset) and `zIndex` (stack
order). -/
structure Position where
  dateX : Nat
  offsetY : ℚ
  zIndex : Int
deriving DecidableEq

/-- `DecorativeElement.style` block (width, height, rotation, opacity),
as used by `DecorationLayer.tsx` and the resize gesture. -/
structure ElementStyle where
  width : ℚ
  height : ℚ
  rotation : ℚ
  opacity : ℚ
deriving DecidableEq

/-- `BezierCurve` as declared in the types module (`part_000`): one
cubic curve segment of a handwriting stroke. -/
structure BezierCurve where
  startX : ℚ
  startY : ℚ
  controlPoint1X : ℚ
  controlPoint1Y : ℚ
  controlPoint2X : ℚ
  controlPoint2Y : ℚ
  endX : ℚ
  endY : ℚ
deriving DecidableEq

/-- `CalendarEvent` as declared in the types module (`part_000`):
id, title, startTime/endTime (`Date` instants, modelled as `Nat`
timestamps), optional description, sourceCalendar, optional color, and
the last-write `timestamp` number. -/
structure CalendarEvent where
  id : String
  title : String
  startTime : Nat
  endTime : Nat
  description : Option String
  sourceCalendar : CalendarSource
  color : Option String
  timestamp : Nat
deriving DecidableEq

/-- `DecorativeElement` as declared in the types module (`part_000`):
id, type, position, optional svgPath/imageUrl/content, and the inline
style block. -/
structure DecorativeElement where
  id : String
  type : DecorationType
  position : Position
  svgPath : Option String
  imageUrl : Option String
  content : Option String
  style : ElementStyle
deriving DecidableEq

/-- `HandwritingStroke` as declared in the types module (`part_000`):
id, position, bezierCurves, pressure samples, color, width. -/
structure HandwritingStroke where
  id : String
  position : Position
  bezierCurves : List BezierCurve
  pressure : List ℚ
  color : String
  width : ℚ
deriving DecidableEq

/-- `TaskItem` as declared in the types module (`part_000`): id,
content, completed flag, associated date (an ISO date string, modelled
as a day number), priority level. -/
structure TaskItem where
  id : String
  content : String
  completed : Bool
  date : Nat
  priority : TaskPriority
deriving DecidableEq

/-- `Partial<CalendarEvent>`: each field optionally present; an absent
field leaves the entity's field unchanged under `{...e, ...updates}`. -/
structure CalendarEventPatch where
  id : Option String
  title : Option String
  startTime : Option Nat
  endTime : Option Nat
  description : Option (Option String)
  sourceCalendar : Option CalendarSource
  color : Option (Option String)
  timestamp : Option Nat
deriving DecidableEq

/-- `Partial<DecorativeElement>`; note the merge is shallow, so a present
`position` or `style` replaces the whole nested object. -/
structure DecorativeElementPatch where
  id : Option String
  type : Option DecorationType
  position : Option Position
  svgPath : Option (Option String)
  imageUrl : Option (Option String)
  content : Option (Option String)
  style : Option ElementStyle
deriving DecidableEq

/-- `Partial<TaskItem>`. -/
structure TaskItemPatch where
  id : Option String
  content : Option String
  completed : Option Bool
  date : Option Nat
  priority : Option TaskPriority
deriving DecidableEq

/-- The empty `Partial<DecorativeElementPatch>` (no fields present). -/
def emptyDecorationPatch : DecorativeElementPatch :=
  { id := none, type := none, position := none, svgPath := none,
    imageUrl := none, content := none, style := none }

/-- JavaScript shallow merge `{...e, ...updates}` for events. -/
def applyEventPatch (e : CalendarEvent) (p : CalendarEventPatch) : CalendarEvent :=
  { id := p.id.getD e.id
    title := p.title.getD e.title
    startTime := p.startTime.getD e.startTime
    endTime := p.endTime.getD e.endTime
    description := p.description.getD e.description
    sourceCalendar := p.sourceCalendar.getD e.sourceCalendar
    color := p.color.getD e.color
    timestamp := p.timestamp.getD e.timestamp }

/-- JavaScript shallow merge `{...d, ...updates}` for decorations. -/
def applyDecorationPatch (d : DecorativeElement) (p : DecorativeElementPatch) :
    DecorativeElement :=
  { id := p.id.getD d.id
    type := p.type.getD d.type
    position := p.position.getD d.position
    svgPath := p.svgPath.getD d.svgPath
    imageUrl := p.imageUrl.getD d.imageUrl
    content := p.content.getD d.content
    style := p.style.getD d.style }

/-- JavaScript shallow merge `{...t, ...updates}` for tasks. -/
def applyTaskPatch (t : TaskItem) (p : TaskItemPatch) : TaskItem :=
  { id := p.id.getD t.id
    content := p.content.getD t.content
    completed := p.completed.getD t.completed
    date := p.date.getD t.date
    priority := p.priority.getD t.priority }

/-- `LayerState.visibility`: one boolean per layer. -/
structure Visibility where
  events : Bool
  decorations : Bool
  handwriting : Bool
  tasks : Bool
deriving DecidableEq

/-- Dynamic read `state.visibility[layer]`. -/
def Visibility.get (v : Visibility) : Layer → Bool
  | .events => v.events
  | .decorations => v.decorations
  | .handwriting => v.handwriting
  | .tasks => v.tasks

/-- Dynamic write `{ ...state.visibility, [layer]: b }`. -/
def Visibility.set (v : Visibility) : Layer → Bool → Visibility
  | .events, b => { v with events := b }
  | .decorations, b => { v with decorations := b }
  | .handwriting, b => { v with handwriting := b }
  | .tasks, b => { v with tasks := b }

/-- `LayerState`: the four entity collections plus visibility flags;
exactly the fields captured by `getCurrentState` in the store. -/
structure LayerState where
  events : List CalendarEvent
  decorations : List DecorativeElement
  handwriting : List HandwritingStroke
  tasks : List TaskItem
  visibility : Visibility
deriving DecidableEq

/-- The payload `data` of a `SyncOperation`: a full entity for `create`,
a partial patch for `update`, `null` for `delete` (the types module
declares the field `data: any`; here it is a tagged union). -/
inductive OpData
  | eventData (e : CalendarEvent)
  | decorationData (d : DecorativeElement)
  | strokeData (s : HandwritingStroke)
  | taskData (t : TaskItem)
  | eventPatch (p : CalendarEventPatch)
  | decorationPatch (p : DecorativeElementPatch)
  | taskPatch (p : TaskItemPatch)
  | null
deriving DecidableEq

/-- `SyncOperation`: `{ type, layer, entityId, data, timestamp }`. -/
structure SyncOperation where
  type : OpType
  layer : Layer
  entityId : String
  data : OpData
  timestamp : Nat
deriving DecidableEq

/-- `VisualTheme.fontPairings`. -/
structure FontPairings where
  header : String
  body : String
deriving DecidableEq

/-- `VisualTheme` as declared in the types module (`part_000`); the
`cssVariables` record is modelled as an association list. -/
structure VisualTheme where
  id : String
  name : String
  svgTemplate : String
  cssVariables : List (String × String)
  fontPairings : FontPairings
deriving DecidableEq

/-- The store's state (`AppState extends LayerState` in the source; the
five `LayerState` fields are factored into `layers`).  `currentTheme`
is `VisualTheme | null`; `historyIndex` starts at `-1`, hence `Int`. -/
structure AppState where
  layers : LayerState
  currentTheme : Option VisualTheme
  selectedDate : Nat
  zoomLevel : ℚ
  viewMode : ViewMode
  syncQueue : List SyncOperation
  history : List LayerState
  historyIndex : Int
deriving DecidableEq

/-- `getCurrentState`: the `LayerState` snapshot captured for history. -/
def getCurrentState (s : AppState) : LayerState := s.layers

/-- `history.slice(0, historyIndex + 1)` followed by pushing `snap`:
the common history update of every mutation. -/
def pushHistory (s : AppState) (snap : LayerState) : List LayerState :=
  s.history.take (s.historyIndex + 1).toNat ++ [snap]

/-- `queueSync`: appends one operation to the outbound sync queue. -/
def queueSync (op : SyncOperation) (s : AppState) : AppState :=
  { s with syncQueue := s.syncQueue ++ [op] }

/-- `addEvent`: appends the event, pushes a pre-mutation history
snapshot, and enqueues a `create` sync operation. -/
def addEvent (event : CalendarEvent) (now : Nat) (s : AppState) : AppState :=
  let currentState := getCurrentState s
  let s1 : AppState :=
    { s with
      layers := { s.layers with events := s.layers.events ++ [event] }
      history := pushHistory s currentState
      historyIndex := s.historyIndex + 1 }
  queueSync { type := .create, layer := .events, entityId := event.id,
              data := .eventData event, timestamp := now } s1

/-- `updateEvent`: shallow-merges onto the entity with matching id,
pushes a history snapshot, and enqueues an `update` sync operation
(unconditionally, even when no id matches). -/
def updateEvent (id : String) (updates : CalendarEventPatch) (now : Nat)
    (s : AppState) : AppState :=
  let currentState := getCurrentState s
  let s1 : AppState :=
    { s with
      layers := { s.layers with
        events := s.layers.events.map
          (fun e => if e.id = id then applyEventPatch e updates else e) }
      history := pushHistory s currentState
      historyIndex := s.historyIndex + 1 }
  queueSync { type := .update, layer := .events, entityId := id,
              data := .eventPatch updates, timestamp := now } s1

/-- `deleteEvent`: filters out entities with the id, pushes a history
snapshot, and enqueues a `delete` sync operation. -/
def deleteEvent (id : String) (now : Nat) (s : AppState) : AppState :=
  let currentState := getCurrentState s
  let s1 : AppState :=
    { s with
      layers := { s.layers with
        events := s.layers.events.filter (fun e => ¬ e.id = id) }
      history := pushHistory s currentState
      historyIndex := s.historyIndex + 1 }
  queueSync { type := .delete, layer := .events, entityId := id,
              data := .null, timestamp := now } s1

/-- `addDecoration`. -/
def addDecoration (decoration : DecorativeElement) (now : Nat) (s : AppState) :
    AppState :=
  let currentState := getCurrentState s
  let s1 : AppState :=
    { s with
      layers := { s.layers with decorations := s.layers.decorations ++ [decoration] }
      history := pushHistory s currentState
      historyIndex := s.historyIndex + 1 }
  queueSync { type := .create, layer := .decorations, entityId := decoration.id,
              data := .decorationData decoration, timestamp := now } s1

/-- `updateDecoration`. -/
def updateDecoration (id : String) (updates : DecorativeElementPatch) (now : Nat)
    (s : AppState) : AppState :=
  let currentState := getCurrentState s
  let s1 : AppState :=
    { s with
      layers := { s.layers with
        decorations := s.layers.decorations.map
          (fun d => if d.id = id then applyDecorationPatch d updates else d) }
      history := pushHistory s currentState
      historyIndex := s.historyIndex + 1 }
  queueSync { type := .update, layer := .decorations, entityId := id,
              data := .decorationPatch updates, timestamp := now } s1

/-- `deleteDecoration`. -/
def deleteDecoration (id : String) (now : Nat) (s : AppState) : AppState :=
  let currentState := getCurrentState s
  let s1 : AppState :=
    { s with
      layers := { s.layers with
        decorations := s.layers.decorations.filter (fun d => ¬ d.id = id) }
      history := pushHistory s currentState
      historyIndex := s.historyIndex + 1 }
  queueSync { type := .delete, layer := .decorations, entityId := id,
              data := .null, timestamp := now } s1

/-- `addStroke`. -/
def addStroke (stroke : HandwritingStroke) (now : Nat) (s : AppState) : AppState :=
  let currentState := getCurrentState s
  let s1 : AppState :=
    { s with
      layers := { s.layers with handwriting := s.layers.handwriting ++ [stroke] }
      history := pushHistory s currentState
      historyIndex := s.historyIndex + 1 }
  queueSync { type := .create, layer := .handwriting, entityId := stroke.id,
              data := .strokeData stroke, timestamp := now } s1

/-- `deleteStroke` (there is no `updateStroke`). -/
def deleteStroke (id : String) (now : Nat) (s : AppState) : AppState :=
  let currentState := getCurrentState s
  let s1 : AppState :=
    { s with
      layers := { s.layers with
        handwriting := s.layers.handwriting.filter (fun st => ¬ st.id = id) }
      history := pushHistory s currentState
      historyIndex := s.historyIndex + 1 }
  queueSync { type := .delete, layer := .handwriting, entityId := id,
              data := .null, timestamp := now } s1

/-- `addTask`. -/
def addTask (task : TaskItem) (now : Nat) (s : AppState) : AppState :=
  let currentState := getCurrentState s
  let s1 : AppState :=
    { s with
      layers := { s.layers with tasks := s.layers.tasks ++ [task] }
      history := pushHistory s currentState
      historyIndex := s.historyIndex + 1 }
  queueSync { type := .create, layer := .tasks, entityId := task.id,
              data := .taskData task, timestamp := now } s1

/-- `updateTask`. -/
def updateTask (id : String) (updates : TaskItemPatch) (now : Nat)
    (s : AppState) : AppState :=
  let currentState := getCurrentState s
  let s1 : AppState :=
    { s with
      layers := { s.layers with
        tasks := s.layers.tasks.map
          (fun t => if t.id = id then applyTaskPatch t updates else t) }
      history := pushHistory s currentState
      historyIndex := s.historyIndex + 1 }
  queueSync { type := .update, layer := .tasks, entityId := id,
              data := .taskPatch updates, timestamp := now } s1

/-- `deleteTask`. -/
def deleteTask (id : String) (now : Nat) (s : AppState) : AppState :=
  let currentState := getCurrentState s
  let s1 : AppState :=
    { s with
      layers := { s.layers with
        tasks := s.layers.tasks.filter (fun t => ¬ t.id = id) }
      history := pushHistory s currentState
      historyIndex := s.historyIndex + 1 }
  queueSync { type := .delete, layer := .tasks, entityId := id,
              data := .null, timestamp := now } s1

/-- `toggleLayerVisibility`: flips one visibility flag and pushes a
history snapshot; it does not call `queueSync`. -/
def toggleLayerVisibility (layer : Layer) (s : AppState) : AppState :=
  let currentState := getCurrentState s
  { s with
    layers := { s.layers with
      visibility := s.layers.visibility.set layer (! s.layers.visibility.get layer) }
    history := pushHistory s currentState
    historyIndex := s.historyIndex + 1 }

/-- `undo`: when `historyIndex >= 0`, restores `history[historyIndex]`
and decrements the index.  The `none` branch mirrors zustand's merge of
`{...undefined, history, historyIndex}` when the index is past the end
(unreachable from the initial state). -/
def undo (s : AppState) : AppState :=
  if 0 ≤ s.historyIndex then
    match s.history.get? s.historyIndex.toNat with
    | some prevState => { s with layers := prevState, historyIndex := s.historyIndex - 1 }
    | none => { s with historyIndex := s.historyIndex - 1 }
  else s

/-- `redo`: when `historyIndex < history.length - 1`, restores
`history[historyIndex + 1]` and increments the index. -/
def redo (s : AppState) : AppState :=
  if s.historyIndex < (s.history.length : Int) - 1 then
    match s.history.get? (s.historyIndex + 1).toNat with
    | some nextState => { s with layers := nextState, historyIndex := s.historyIndex + 1 }
    | none => { s with historyIndex := s.historyIndex + 1 }
  else s

/-- `processSyncQueue`.  Modelled from the spec: the transport call
`await syncService.sendOperations(queue)` is commented out in the source
(the sync service is not under `src`), so the batch outcome is passed in
as `transportOk`, per the spec's transport contract (success/failure per
batch).  The `set({ syncQueue: [] })` sits inside the `try` after the
send, so a throwing send leaves the queue untouched; the `catch` only
logs. -/
def processSyncQueue (transportOk : Bool) (s : AppState) : AppState :=
  if s.syncQueue.length = 0 then s
  else if transportOk then { s with syncQueue := [] }
  else s

/-- One step of `applyRemoteChanges`: dispatches a remote operation
through the local mutation API.  A payload whose shape does not match
the `type`/`layer` (impossible for operations the store itself emits,
untyped in the source) is a no-op. -/
def applyRemoteOp (now : Nat) (s : AppState) (op : SyncOperation) : AppState :=
  match op.type with
  | .create =>
    match op.layer, op.data with
    | .events, .eventData e => addEvent e now s
    | .decorations, .decorationData d => addDecoration d now s
    | .handwriting, .strokeData st => addStroke st now s
    | .tasks, .taskData t => addTask t now s
    | _, _ => s
  | .update =>
    match op.layer, op.data with
    | .events, .eventPatch p => updateEvent op.entityId p now s
    | .decorations, .decorationPatch p => updateDecoration op.entityId p now s
    | .tasks, .taskPatch p => updateTask op.entityId p now s
    | _, _ => s
  | .delete =>
    match op.layer with
    | .events => deleteEvent op.entityId now s
    | .decorations => deleteDecoration op.entityId now s
    | .handwriting => deleteStroke op.entityId now s
    | .tasks => deleteTask op.entityId now s

/-- `applyRemoteChanges`: replays inbound operations, in order, through
the same local mutation functions. -/
def applyRemoteChanges (operations : List SyncOperation) (now : Nat)
    (s : AppState) : AppState :=
  operations.foldl (applyRemoteOp now) s

/-- The store's initial state. -/
def initialState : AppState :=
  { layers :=
      { events := [], decorations := [], handwriting := [], tasks := []
        visibility := { events := true, decorations := true,
                        handwriting := true, tasks := true } }
    currentTheme := none
    selectedDate := 0
    zoomLevel := 1
    viewMode := .monthly
    syncQueue := []
    history := []
    historyIndex := -1 }

/-! ## Coordinate mapper (`useCalendarCanvas.ts`, `part_007`) -/

/-- `eachDayOfInterval` (date-fns): the consecutive days from `start`
to `finish` inclusive, as day numbers. -/
def eachDayOfInterval (start finish : Nat) : List Nat :=
  (List.range (finish + 1 - start)).map (fun i => start + i)

/-- `row = viewMode === 'weekly' ? 0 : Math.floor(dayIndex / 7)`
(line 51 of `useCalendarCanvas.ts`). -/
def gridRow (viewMode : ViewMode) (dayIndex : Nat) : Nat :=
  match viewMode with
  | .weekly => 0
  | .monthly => dayIndex / 7

/-- The row/column computed by `dateToPosition` (lines 46-52 of
`useCalendarCanvas.ts`): `findIndex` over the displayed `days`, then
`row = weekly ? 0 : ⌊dayIndex / 7⌋`, `col = dayIndex % 7`; `none` when
the date is not displayed (the `dayIndex === -1` branch). -/
def dateToGridCell (days : List Nat) (viewMode : ViewMode) (dateString : Nat) :
    Option (Nat × Nat) :=
  match days.findIdx? (fun day => day = dateString) with
  | none => none
  | some dayIndex => some (gridRow viewMode dayIndex, dayIndex % 7)

/-- `dateToPosition`: `{ x: col * cellWidth, y: row * cellHeight }`,
and `{x: 0, y: 0}` for a date outside the displayed range. -/
def dateToPosition (days : List Nat) (viewMode : ViewMode) (cellW cellH : ℚ)
    (dateString : Nat) : ℚ × ℚ :=
  match dateToGridCell days viewMode dateString with
  | none => (0, 0)
  | some (row, col) => ((col : ℚ) * cellW, (row : ℚ) * cellH)

/-- JavaScript truncation toward zero (the rounding used by the `%`
operator on numbers). -/
def ratTrunc (q : ℚ) : Int :=
  if 0 ≤ q then ⌊q⌋ else ⌈q⌉

/-- JavaScript `a % b` on numbers: `a - b * trunc(a / b)` (sign follows
the dividend). -/
def jsMod (a b : ℚ) : ℚ :=
  a - b * (ratTrunc (a / b) : ℚ)

/-- The drag state set by `startDraggingSticker`: the sticker id and the
pointer's grab offset within the sticker. -/
structure DragState where
  id : String
  initialX : ℚ
  initialY : ℚ
deriving DecidableEq

/-- The dragged-sticker branch of `handleMouseMove`
(`useCalendarCanvas.ts` lines 104-136): computes the adjusted position
`(newX, newY) = (x, y) - grab offset`, finds the grid cell under it,
and when the cell index is within the displayed `days` rewrites the
decoration's `position.dateX` to that cell's date and `position.offsetY`
to `newY % cellHeight` via `updateDecoration`. -/
def handleMouseMoveDrag (draggedSticker : DragState) (days : List Nat)
    (viewMode : ViewMode) (cellW cellH : ℚ) (x y : ℚ) (now : Nat)
    (s : AppState) : AppState :=
  match s.layers.decorations.find? (fun d => d.id = draggedSticker.id) with
  | none => s
  | some sticker =>
    let newX := x - draggedSticker.initialX
    let newY := y - draggedSticker.initialY
    let col : Int := ⌊newX / cellW⌋
    let row : Int := match viewMode with
      | .weekly => 0
      | .monthly => ⌊newY / cellH⌋
    let dayIndex : Int := row * 7 + col
    if 0 ≤ dayIndex ∧ dayIndex < (days.length : Int) then
      match days.get? dayIndex.toNat with
      | none => s
      | some targetDate =>
        updateDecoration sticker.id
          { emptyDecorationPatch with
            position := some { sticker.position with
                               dateX := targetDate
                               offsetY := jsMod newY cellH } }
          now s
    else s

/-! ## Curve flattening (`pdfExport.ts`) -/

/-- One coordinate of the cubic Bezier formula evaluated in
`approximateBezier`:
`mt³·p0 + 3·mt²·t·p1 + 3·mt·t²·p2 + t³·p3` with `mt = 1 - t`. -/
def bezierCoord (p0 p1 p2 p3 t : ℚ) : ℚ :=
  let mt := 1 - t
  mt * mt * mt * p0 + 3 * mt * mt * t * p1 + 3 * mt * t * t * p2 + t * t * t * p3

/-- `approximateBezier`: the sample points emitted by the
`for (let i = 0; i <= segments; i++)` loop, at `t = i / segments`. -/
def approximateBezier (x0 y0 x1 y1 x2 y2 x3 y3 : ℚ) (segments : Nat) :
    List (ℚ × ℚ) :=
  (List.range (segments + 1)).map (fun (i : Nat) =>
    let t : ℚ := (i : ℚ) / (segments : ℚ)
    (bezierCoord x0 x1 x2 x3 t, bezierCoord y0 y1 y2 y3 t))

/-! ## Sample data used in concrete runs -/

/-- A concrete calendar event with id `"e1"`. -/
def sampleEvent : CalendarEvent :=
  { id := "e1", title := "meeting", startTime := 10, endTime := 11,
    description := none, sourceCalendar := .native, color := none,
    timestamp := 3 }

/-- The remote `create` operation for `sampleEvent`, as the store itself
would emit it. -/
def sampleCreateOp : SyncOperation :=
  { type := .create, layer := .events, entityId := "e1",
    data := .eventData sampleEvent, timestamp := 5 }

/-- The empty `Partial<CalendarEvent>` (no fields present). -/
def emptyEventPatch : CalendarEventPatch :=
  { id := none, title := none, startTime := none, endTime := none,
    description := none, sourceCalendar := none, color := none,
    timestamp := none }

/-! ## Claim theorems -/

/-- C1.  The claim states that `applyRemoteChanges([op])` applied twice
for the same `create` operation leaves exactly one entity with that id
(upsert-by-id).  The code routes remote creates through `addEvent`,
which appends unconditionally, so replaying the same `create` twice
duplicates the entity: at the failing input (the initial store, one
remote `create` for id `"e1"` replayed twice) the events layer holds two
entities with id `"e1"`, not one. -/
theorem C1_create_replay_duplicates :
    ((applyRemoteChanges [sampleCreateOp] 7
        (applyRemoteChanges [sampleCreateOp] 7 initialState)).layers.events.filter
      (fun e => e.id = "e1")).length = 2 ∧
    ¬ ((applyRemoteChanges [sampleCreateOp] 7
        (applyRemoteChanges [sampleCreateOp] 7 initialState)).layers.events.filter
      (fun e => e.id = "e1")).length = 1 := by
  decide

/-- C2.  The claim states that N `undo()` calls restore the
pre-sequence `LayerState` and N subsequent `redo()` calls restore the
post-sequence state.  At the failing input N = 1 (one `addEvent` on the
initial store) the undo half holds, but `redo` restores
`history[historyIndex + 1]` — the snapshot taken BEFORE the mutation —
so the post-sequence state (events = [e1]) is never reached: after
undo-then-redo the events layer is still empty. -/
theorem C2_redo_does_not_restore :
    (undo (addEvent sampleEvent 3 initialState)).layers = initialState.layers ∧
    (addEvent sampleEvent 3 initialState).layers.events = [sampleEvent] ∧
    (redo (undo (addEvent sampleEvent 3 initialState))).layers.events = [] := by
  decide

/-- C4.  Draining the sync queue clears it when the transport batch
succeeds, and leaves the whole state — in particular every pending
operation, unchanged and in order — when the transport fails (the
`set({syncQueue: []})` sits after the send inside `try`, and the `catch`
only logs). -/
theorem C4_drain_success_clears_failure_keeps (s : AppState) :
    (processSyncQueue true s).syncQueue = [] ∧
    processSyncQueue false s = s := by
  constructor
  · unfold processSyncQueue
    by_cases h : s.syncQueue.length = 0
    · simp [h, List.length_eq_zero.mp h]
    · simp [h]
  · unfold processSyncQueue
    by_cases h : s.syncQueue.length = 0 <;> simp [h]

/-! ### Projection facts about the mutations (definitional) -/

lemma addEvent_layers (e : CalendarEvent) (now : Nat) (s : AppState) :
    (addEvent e now s).layers = { s.layers with events := s.layers.events ++ [e] } := rfl

lemma addEvent_history (e : CalendarEvent) (now : Nat) (s : AppState) :
    (addEvent e now s).history = pushHistory s s.layers := rfl

lemma addEvent_historyIndex (e : CalendarEvent) (now : Nat) (s : AppState) :
    (addEvent e now s).historyIndex = s.historyIndex + 1 := rfl

lemma deleteEvent_layers (id : String) (now : Nat) (s : AppState) :
    (deleteEvent id now s).layers =
      { s.layers with events := s.layers.events.filter (fun e => ¬ e.id = id) } := rfl

lemma deleteEvent_history (id : String) (now : Nat) (s : AppState) :
    (deleteEvent id now s).history = pushHistory s s.layers := rfl

lemma deleteEvent_historyIndex (id : String) (now : Nat) (s : AppState) :
    (deleteEvent id now s).historyIndex = s.historyIndex + 1 := rfl

lemma undo_eq_of_get (s : AppState) (prev : LayerState)
    (hpos : 0 ≤ s.historyIndex)
    (hget : s.history.get? s.historyIndex.toNat = some prev) :
    undo s = { s with layers := prev, historyIndex := s.historyIndex - 1 } := by
  unfold undo
  rw [if_pos hpos, hget]

lemma undo_history (s : AppState) : (undo s).history = s.history := by
  unfold undo
  by_cases h : (0:Int) ≤ s.historyIndex
  · rw [if_pos h]
    cases s.history.get? s.historyIndex.toNat <;> rfl
  · rw [if_neg h]

/-- C3 counterexample.  The claim states that
`addEvent(e1); deleteEvent(e1.id); undo(); undo()` leaves the events
layer with exactly one entry equal to `e1`; run on the initial store
(whose events layer does not contain `e1`) the final events layer is
empty — the second `undo` reverts the `addEvent` as well. -/
theorem C3_counterexample :
    (undo (undo (deleteEvent "e1" 4 (addEvent sampleEvent 3 initialState)))).layers.events = [] ∧
    ¬ (undo (undo (deleteEvent "e1" 4
        (addEvent sampleEvent 3 initialState)))).layers.events.count sampleEvent = 1 := by
  decide

/-- C3 amended.  For any store state with a well-formed history index
(`-1 ≤ historyIndex < history.length`, which holds for every state
reachable from the initial one) whose events layer does not contain
`e`: after `addEvent(e); deleteEvent(e.id)`, the FIRST `undo()` leaves
the events layer with exactly one entry equal to `e`, and the second
`undo()` restores the full pre-sequence `LayerState`, so `e` is gone
again. -/
theorem C3_amended_first_undo_restores (s : AppState) (e : CalendarEvent)
    (n1 n2 : Nat)
    (hidx : -1 ≤ s.historyIndex)
    (hlen : s.historyIndex < (s.history.length : Int))
    (hmem : e ∉ s.layers.events) :
    (undo (deleteEvent e.id n2 (addEvent e n1 s))).layers.events.count e = 1 ∧
    (undo (undo (deleteEvent e.id n2 (addEvent e n1 s)))).layers = s.layers := by
  obtain ⟨k, hk⟩ : ∃ k : ℕ, s.historyIndex + 1 = (k : ℤ) :=
    ⟨(s.historyIndex + 1).toNat, (Int.toNat_of_nonneg (by omega)).symm⟩
  have hkL : k ≤ s.history.length := by omega
  set s1 := addEvent e n1 s with hs1
  set s2 := deleteEvent e.id n2 s1 with hs2
  have htake : (s.history.take (s.historyIndex + 1).toNat) = s.history.take k := by
    rw [show (s.historyIndex + 1).toNat = k by omega]
  have htakelen : (s.history.take k).length = k := by
    rw [List.length_take]; omega
  have h1hist : s1.history = s.history.take k ++ [s.layers] := by
    rw [hs1, addEvent_history, pushHistory, htake]
  have h1idx : s1.historyIndex = s.historyIndex + 1 := addEvent_historyIndex ..
  have h1layers : s1.layers = { s.layers with events := s.layers.events ++ [e] } :=
    addEvent_layers ..
  have h2idx : s2.historyIndex = s.historyIndex + 2 := by
    rw [hs2, deleteEvent_historyIndex, h1idx]; omega
  have h2hist : s2.history = (s.history.take k ++ [s.layers]) ++ [s1.layers] := by
    rw [hs2, deleteEvent_history, pushHistory, h1idx]
    rw [show (s.historyIndex + 1 + 1).toNat = k + 1 by omega]
    rw [h1hist]
    rw [show k + 1 = (s.history.take k ++ [s.layers]).length by
      rw [List.length_append, htakelen]; rfl]
    rw [List.take_length]
  have hget1 : s2.history.get? s2.historyIndex.toNat = some s1.layers := by
    rw [h2hist, h2idx, show (s.historyIndex + 2).toNat = k + 1 by omega]
    rw [show k + 1 = (s.history.take k ++ [s.layers]).length by
      rw [List.length_append, htakelen]; rfl]
    exact List.get?_concat_length ..
  have hpos1 : (0:Int) ≤ s2.historyIndex := by rw [h2idx]; omega
  have hu1 : undo s2 = { s2 with layers := s1.layers, historyIndex := s2.historyIndex - 1 } :=
    undo_eq_of_get s2 s1.layers hpos1 hget1
  constructor
  · rw [hu1]
    show (s1.layers).events.count e = 1
    rw [h1layers]
    show (s.layers.events ++ [e]).count e = 1
    rw [List.count_append, List.count_eq_zero.mpr hmem]
    simp
  · have hu1idx : (undo s2).historyIndex = s.historyIndex + 1 := by
      rw [hu1]; show s2.historyIndex - 1 = _; rw [h2idx]; omega
    have hu1hist : (undo s2).history = s2.history := by rw [hu1]
    have hcat : (s.history.take k ++ [s.layers]).get? k = some s.layers := by
      have h0 : (s.history.take k ++ [s.layers]).get? (s.history.take k).length =
          some s.layers := List.get?_concat_length ..
      rw [htakelen] at h0
      exact h0
    have hlt : k < (s.history.take k ++ [s.layers]).length := by
      simp [htakelen]
    have hget2 : (undo s2).history.get? (undo s2).historyIndex.toNat = some s.layers := by
      rw [hu1hist, hu1idx, h2hist, show (s.historyIndex + 1).toNat = k by omega]
      rw [List.get?_append hlt]
      exact hcat
    have hpos2 : (0:Int) ≤ (undo s2).historyIndex := by rw [hu1idx]; omega
    have hu2 : undo (undo s2) = { (undo s2) with layers := s.layers, historyIndex := (undo s2).historyIndex - 1 } :=
      undo_eq_of_get (undo s2) s.layers hpos2 hget2
    rw [hu2]

/-- C3 amended, witness: the amended property evaluated on the initial
store and `sampleEvent`. -/
theorem C3_amended_witness :
    (undo (deleteEvent sampleEvent.id 4
      (addEvent sampleEvent 3 initialState))).layers.events.count sampleEvent = 1 ∧
    (undo (undo (deleteEvent sampleEvent.id 4
      (addEvent sampleEvent 3 initialState)))).layers = initialState.layers :=
  C3_amended_first_undo_restores initialState sampleEvent 3 4
    (by decide) (by decide) (by decide)

/-- C5 counterexample.  The claim states that an unknown-id `update` has
no observable effect at all (no history entry, no `SyncOperation`).  At
the failing input (updating id `"x"` on the initial store, whose events
layer is empty) the entity collections are indeed unchanged, but one
history snapshot is pushed and one update `SyncOperation` is enqueued. -/
theorem C5_counterexample :
    (updateEvent "x" emptyEventPatch 3 initialState).layers.events
      = initialState.layers.events ∧
    ¬ (updateEvent "x" emptyEventPatch 3 initialState).syncQueue
      = initialState.syncQueue ∧
    ¬ (updateEvent "x" emptyEventPatch 3 initialState).history
      = initialState.history := by
  decide

/-- C5 amended.  An `update` whose id matches no entity in the events
layer leaves every entity collection (the whole `LayerState`, visibility
included) unchanged and raises no error (the embedding is total), but it
still pushes one history snapshot and enqueues one `update`
`SyncOperation`. -/
theorem C5_amended_unknown_id_update (s : AppState) (id : String)
    (p : CalendarEventPatch) (now : Nat)
    (h : ∀ e ∈ s.layers.events, ¬ e.id = id) :
    (updateEvent id p now s).layers = s.layers ∧
    (updateEvent id p now s).syncQueue = s.syncQueue ++
      [{ type := .update, layer := .events, entityId := id,
         data := .eventPatch p, timestamp := now }] ∧
    (updateEvent id p now s).history = pushHistory s s.layers ∧
    (updateEvent id p now s).historyIndex = s.historyIndex + 1 := by
  refine ⟨?_, rfl, rfl, rfl⟩
  show ({ s.layers with
          events := s.layers.events.map
            (fun e => if e.id = id then applyEventPatch e p else e) } : LayerState)
      = s.layers
  have h2 : ∀ e ∈ s.layers.events,
      (if e.id = id then applyEventPatch e p else e) = (fun e => e) e :=
    fun e he => if_neg (h e he)
  rw [List.map_congr_left h2, List.map_id']

/-- C5 amended, witness: the amended property evaluated at id `"x"` on
the initial store. -/
theorem C5_amended_witness :
    (updateEvent "x" emptyEventPatch 3 initialState).layers = initialState.layers ∧
    (updateEvent "x" emptyEventPatch 3 initialState).syncQueue = initialState.syncQueue ++
      [{ type := .update, layer := .events, entityId := "x",
         data := .eventPatch emptyEventPatch, timestamp := 3 }] ∧
    (updateEvent "x" emptyEventPatch 3 initialState).history
      = pushHistory initialState initialState.layers ∧
    (updateEvent "x" emptyEventPatch 3 initialState).historyIndex
      = initialState.historyIndex + 1 :=
  C5_amended_unknown_id_update initialState "x" emptyEventPatch 3 (by decide)

/-- C6.  `toggleLayerVisibility(layer)` flips exactly that layer's
visibility boolean (every other layer's flag is untouched), pushes
exactly one history snapshot (the pre-mutation `LayerState`), and leaves
the sync queue and all four entity collections unchanged — no
`SyncOperation` is enqueued. -/
theorem C6_toggle_visibility_frame (s : AppState) (layer : Layer) :
    (toggleLayerVisibility layer s).layers.visibility.get layer
      = ! s.layers.visibility.get layer ∧
    (∀ other, ¬ other = layer →
      (toggleLayerVisibility layer s).layers.visibility.get other
        = s.layers.visibility.get other) ∧
    (toggleLayerVisibility layer s).layers.events = s.layers.events ∧
    (toggleLayerVisibility layer s).layers.decorations = s.layers.decorations ∧
    (toggleLayerVisibility layer s).layers.handwriting = s.layers.handwriting ∧
    (toggleLayerVisibility layer s).layers.tasks = s.layers.tasks ∧
    (toggleLayerVisibility layer s).syncQueue = s.syncQueue ∧
    (toggleLayerVisibility layer s).history = pushHistory s s.layers ∧
    (toggleLayerVisibility layer s).historyIndex = s.historyIndex + 1 := by
  refine ⟨?_, ?_, rfl, rfl, rfl, rfl, rfl, rfl, rfl⟩
  · cases layer <;> rfl
  · intro other hne
    cases layer <;> cases other <;> first | rfl | exact absurd rfl hne

/-- C6 witness: toggling the handwriting (ink) layer on the initial
store leaves the events flag and the sync queue unchanged. -/
theorem C6_witness :
    (toggleLayerVisibility .handwriting initialState).layers.visibility.get .events
      = initialState.layers.visibility.get .events ∧
    (toggleLayerVisibility .handwriting initialState).syncQueue
      = initialState.syncQueue :=
  ⟨(C6_toggle_visibility_frame initialState .handwriting).2.1 .events (by decide),
   (C6_toggle_visibility_frame initialState .handwriting).2.2.2.2.2.2.1⟩

/-! ### Index arithmetic for the consecutive day grid -/

lemma eachDay_cons (a n : Nat) :
    (List.range (n + 1)).map (fun i => a + i)
      = a :: (List.range n).map (fun i => (a + 1) + i) := by
  rw [List.range_succ_eq_map, List.map_cons, List.map_map]
  refine congrArg₂ _ (by omega) ?_
  exact List.map_congr_left (fun x _ => by simp [Nat.succ_eq_add_one]; omega)

lemma findIdx_consecutive : ∀ (n a d j : Nat), a ≤ d → d < a + n →
    List.findIdx? (fun day => day = d) ((List.range n).map (fun i => a + i)) j
      = some (j + (d - a)) := by
  intro n
  induction n with
  | zero => intro a d j h1 h2; omega
  | succ n ih =>
    intro a d j h1 h2
    rw [eachDay_cons, List.findIdx?_cons]
    by_cases hda : a = d
    · rw [if_pos (by simp [hda])]
      rw [show j + (d - a) = j by omega]
    · rw [if_neg (by simp [hda])]
      rw [ih (a + 1) d (j + 1) (by omega) (by omega)]
      rw [show j + 1 + (d - (a + 1)) = j + (d - a) by omega]

lemma mem_eachDayOfInterval (start finish d : Nat) :
    d ∈ eachDayOfInterval start finish ↔ start ≤ d ∧ d ≤ finish := by
  unfold eachDayOfInterval
  simp only [List.mem_map, List.mem_range]
  constructor
  · rintro ⟨i, hi, rfl⟩; omega
  · intro h; exact ⟨d - start, by omega, by omega⟩

lemma dateToGridCell_eachDay (start finish d : Nat) (vm : ViewMode)
    (h1 : start ≤ d) (h2 : d ≤ finish) :
    dateToGridCell (eachDayOfInterval start finish) vm d
      = some (gridRow vm (d - start), (d - start) % 7) := by
  unfold dateToGridCell eachDayOfInterval
  rw [findIdx_consecutive (finish + 1 - start) start d 0 h1 (by omega)]
  simp

lemma dateToPosition_eachDay (start finish d : Nat) (vm : ViewMode)
    (cellW cellH : ℚ) (h1 : start ≤ d) (h2 : d ≤ finish) :
    dateToPosition (eachDayOfInterval start finish) vm cellW cellH d
      = (((d - start) % 7 : Nat) * cellW, (gridRow vm (d - start) : Nat) * cellH) := by
  unfold dateToPosition
  rw [dateToGridCell_eachDay start finish d vm h1 h2]

/-- C7 counterexample.  The claim states that for `d1 ≤ d2` in the same
displayed page both the row and the column of `d2` are at least those of
`d1`.  In the monthly page holding days 100..130, day 106 sits in cell
(row 0, col 6) and day 107 in cell (row 1, col 0): the column (and the x
coordinate) DROPS from 6 to 0 across the row break. -/
theorem C7_counterexample :
    (106 : Nat) ≤ 107 ∧
    106 ∈ eachDayOfInterval 100 130 ∧
    107 ∈ eachDayOfInterval 100 130 ∧
    dateToGridCell (eachDayOfInterval 100 130) .monthly 106 = some (0, 6) ∧
    dateToGridCell (eachDayOfInterval 100 130) .monthly 107 = some (1, 0) ∧
    (dateToPosition (eachDayOfInterval 100 130) .monthly 1 1 107).1
      < (dateToPosition (eachDayOfInterval 100 130) .monthly 1 1 106).1 := by
  have hc6 : dateToGridCell (eachDayOfInterval 100 130) .monthly 106 = some (0, 6) := by
    decide
  have hc7 : dateToGridCell (eachDayOfInterval 100 130) .monthly 107 = some (1, 0) := by
    decide
  refine ⟨by decide, by decide, by decide, hc6, hc7, ?_⟩
  unfold dateToPosition
  rw [hc6, hc7]
  norm_num

/-- C7 amended.  For two dates `d1 ≤ d2` of the displayed page, the ROW
(equivalently the y coordinate, for a non-negative cell height) assigned
by `dateToPosition` is monotonically non-decreasing with date order, and
the COLUMN is non-decreasing only among dates in the same row — it
resets to 0 at each row break (for the weekly page, whose single week
holds at most 7 days, rows are constantly 0 and columns are
non-decreasing). -/
theorem C7_amended_grid_monotonicity (start finish d1 d2 : Nat) (vm : ViewMode)
    (cellW cellH : ℚ)
    (h1 : d1 ∈ eachDayOfInterval start finish)
    (h2 : d2 ∈ eachDayOfInterval start finish)
    (hle : d1 ≤ d2)
    (hweek : vm = .weekly → finish ≤ start + 6)
    (hH : 0 ≤ cellH) :
    ∃ r1 c1 r2 c2,
      dateToGridCell (eachDayOfInterval start finish) vm d1 = some (r1, c1) ∧
      dateToGridCell (eachDayOfInterval start finish) vm d2 = some (r2, c2) ∧
      r1 ≤ r2 ∧
      (r1 = r2 → c1 ≤ c2) ∧
      (dateToPosition (eachDayOfInterval start finish) vm cellW cellH d1).2
        ≤ (dateToPosition (eachDayOfInterval start finish) vm cellW cellH d2).2 := by
  rw [mem_eachDayOfInterval] at h1 h2
  obtain ⟨ha1, hb1⟩ := h1
  obtain ⟨ha2, hb2⟩ := h2
  have hrow : gridRow vm (d1 - start) ≤ gridRow vm (d2 - start) := by
    cases vm with
    | weekly => exact le_refl 0
    | monthly => exact Nat.div_le_div_right (by omega)
  refine ⟨gridRow vm (d1 - start), (d1 - start) % 7,
          gridRow vm (d2 - start), (d2 - start) % 7,
          dateToGridCell_eachDay start finish d1 vm ha1 hb1,
          dateToGridCell_eachDay start finish d2 vm ha2 hb2,
          hrow, ?_, ?_⟩
  · intro hr
    cases vm with
    | weekly =>
      have h7 := hweek rfl
      omega
    | monthly =>
      simp only [gridRow] at hr
      omega
  · rw [dateToPosition_eachDay start finish d1 vm cellW cellH ha1 hb1,
        dateToPosition_eachDay start finish d2 vm cellW cellH ha2 hb2]
    exact mul_le_mul_of_nonneg_right (by exact_mod_cast hrow) hH

/-- C7 amended, witness: days 107 and 108 of the monthly page 100..130
land in cells (1,0) and (1,1). -/
theorem C7_amended_witness :
    ∃ r1 c1 r2 c2,
      dateToGridCell (eachDayOfInterval 100 130) .monthly 107 = some (r1, c1) ∧
      dateToGridCell (eachDayOfInterval 100 130) .monthly 108 = some (r2, c2) ∧
      r1 ≤ r2 ∧
      (r1 = r2 → c1 ≤ c2) ∧
      (dateToPosition (eachDayOfInterval 100 130) .monthly 1 1 107).2
        ≤ (dateToPosition (eachDayOfInterval 100 130) .monthly 1 1 108).2 :=
  C7_amended_grid_monotonicity 100 130 107 108 .monthly 1 1
    (by decide) (by decide) (by decide) (by decide) (by norm_num)

/-! ### Pointer arithmetic facts -/

lemma jsMod_bounds (a b : ℚ) (ha : 0 ≤ a) (hb : 0 < b) :
    0 ≤ jsMod a b ∧ jsMod a b < b := by
  have hdiv : (0:ℚ) ≤ a / b := div_nonneg ha hb.le
  have hcancel : b * (a / b) = a := by field_simp
  have hEq : jsMod a b = b * Int.fract (a / b) := by
    unfold jsMod ratTrunc
    rw [if_pos hdiv, Int.fract, mul_sub, hcancel]
  constructor
  · rw [hEq]
    exact mul_nonneg hb.le (Int.fract_nonneg _)
  · rw [hEq]
    calc b * Int.fract (a / b) < b * 1 :=
          mul_lt_mul_of_pos_left (Int.fract_lt_one _) hb
      _ = b := mul_one b

lemma floor_div_of_bounds (x w : ℚ) (c : Int) (hw : 0 < w)
    (h1 : (c:ℚ) * w ≤ x) (h2 : x < ((c:ℚ) + 1) * w) : ⌊x / w⌋ = c := by
  rw [Int.floor_eq_iff]
  constructor
  · rw [le_div_iff hw]
    exact h1
  · rw [div_lt_iff hw]
    exact h2

/-- A concrete sticker with id `"s1"`. -/
def sampleSticker : DecorativeElement :=
  { id := "s1", type := .sticker,
    position := { dateX := 3, offsetY := 0, zIndex := 100 },
    svgPath := none, imageUrl := none, content := some "heart",
    style := { width := 40, height := 40, rotation := 0, opacity := 1 } }

/-- The initial store holding just `sampleSticker`. -/
def stickerState : AppState :=
  { initialState with
    layers := { initialState.layers with decorations := [sampleSticker] } }

/-- C8.  When the dragged decoration's new anchor point
`(x, y) - grab offset` lies inside the cell of `days[idx] = D2` of the
displayed grid (cell widths/heights positive; in weekly view the single
row holds at most 7 cells), the pointer-move handler rewrites every
decoration carrying the dragged id so that its `position.dateX` is
exactly `D2` — a date present in the displayed grid — and its
`position.offsetY` is the residual offset `newY % cellHeight`, which
lands in `[0, cellHeight)`. -/
theorem C8_drag_reanchors_to_grid_date (dragged : DragState) (days : List Nat)
    (vm : ViewMode) (cellW cellH : ℚ) (x y : ℚ) (now : Nat) (s : AppState)
    (sticker : DecorativeElement) (idx : Nat) (D2 : Nat)
    (hfind : s.layers.decorations.find? (fun d => d.id = dragged.id) = some sticker)
    (hget : days.get? idx = some D2)
    (hW : 0 < cellW) (hH : 0 < cellH)
    (hx1 : ((idx % 7 : Nat) : ℚ) * cellW ≤ x - dragged.initialX)
    (hx2 : x - dragged.initialX < (((idx % 7 : Nat) : ℚ) + 1) * cellW)
    (hy1 : ((gridRow vm idx : Nat) : ℚ) * cellH ≤ y - dragged.initialY)
    (hy2 : y - dragged.initialY < (((gridRow vm idx : Nat) : ℚ) + 1) * cellH)
    (hweek : vm = .weekly → idx < 7) :
    D2 ∈ days ∧
    ∀ d ∈ (handleMouseMoveDrag dragged days vm cellW cellH x y now s).layers.decorations,
      d.id = dragged.id →
        d.position.dateX = D2 ∧
        0 ≤ d.position.offsetY ∧ d.position.offsetY < cellH := by
  obtain ⟨hidxlen, -⟩ := List.get?_eq_some.mp hget
  have hstick : sticker.id = dragged.id := by
    have h := List.find?_some hfind
    simpa using h
  have hynn : 0 ≤ y - dragged.initialY :=
    le_trans (mul_nonneg (Nat.cast_nonneg _) hH.le) hy1
  have hoff := jsMod_bounds (y - dragged.initialY) cellH hynn hH
  have hcol : ⌊(x - dragged.initialX) / cellW⌋ = ((idx % 7 : Nat) : Int) :=
    floor_div_of_bounds _ _ _ hW (by push_cast; exact hx1) (by push_cast; exact hx2)
  refine ⟨List.get?_mem hget, ?_⟩
  have hmain : (handleMouseMoveDrag dragged days vm cellW cellH x y now s) =
      updateDecoration sticker.id
        { emptyDecorationPatch with
          position := some { sticker.position with
                             dateX := D2
                             offsetY := jsMod (y - dragged.initialY) cellH } }
        now s := by
    cases vm with
    | monthly =>
      have hrowf : ⌊(y - dragged.initialY) / cellH⌋ = ((idx / 7 : Nat) : Int) := by
        have := floor_div_of_bounds (y - dragged.initialY) cellH ((idx / 7 : Nat) : Int) hH
        simp only [gridRow] at hy1 hy2
        exact this (by push_cast; exact hy1) (by push_cast; exact hy2)
      simp only [handleMouseMoveDrag, hfind]
      rw [hcol, hrowf]
      rw [show ((idx / 7 : Nat) : Int) * 7 + ((idx % 7 : Nat) : Int) = (idx : Int) by omega]
      rw [if_pos ⟨by omega, by exact_mod_cast hidxlen⟩]
      rw [Int.toNat_natCast, hget]
    | weekly =>
      have hmod : idx % 7 = idx := Nat.mod_eq_of_lt (hweek rfl)
      simp only [handleMouseMoveDrag, hfind]
      rw [hcol]
      rw [show (0 : Int) * 7 + ((idx % 7 : Nat) : Int) = (idx : Int) by omega]
      rw [if_pos ⟨by omega, by exact_mod_cast hidxlen⟩]
      rw [Int.toNat_natCast, hget]
  rw [hmain]
  intro d hd hdid
  have hdecs : (updateDecoration sticker.id
      { emptyDecorationPatch with
        position := some { sticker.position with
                           dateX := D2
                           offsetY := jsMod (y - dragged.initialY) cellH } }
      now s).layers.decorations =
      s.layers.decorations.map
        (fun d0 => if d0.id = sticker.id then
          applyDecorationPatch d0
            { emptyDecorationPatch with
              position := some { sticker.position with
                                 dateX := D2
                                 offsetY := jsMod (y - dragged.initialY) cellH } }
          else d0) := rfl
  rw [hdecs] at hd
  rw [List.mem_map] at hd
  obtain ⟨d0, hd0, rfl⟩ := hd
  by_cases h0 : d0.id = sticker.id
  · rw [if_pos h0]
    refine ⟨rfl, hoff.1, hoff.2⟩
  · rw [if_neg h0] at hdid
    exact absurd (hdid.trans hstick.symm) h0

/-- The drag gesture state used in the C8 witness run: sticker `"s1"`
grabbed at its top-left corner. -/
def sampleDrag : DragState := { id := "s1", initialX := 0, initialY := 0 }

/-- C8 witness: on a 31-day monthly grid with 10x10 cells, dragging
`sampleSticker` to the point (15, 15) — inside the cell of day 8
(row 1, col 1) — re-anchors it to date 8 with offset in [0, 10). -/
theorem C8_witness :
    (8 : Nat) ∈ eachDayOfInterval 0 30 ∧
    ∀ d ∈ (handleMouseMoveDrag sampleDrag (eachDayOfInterval 0 30) .monthly
        10 10 15 15 9 stickerState).layers.decorations,
      d.id = sampleDrag.id →
        d.position.dateX = 8 ∧ 0 ≤ d.position.offsetY ∧ d.position.offsetY < 10 :=
  C8_drag_reanchors_to_grid_date sampleDrag (eachDayOfInterval 0 30) .monthly
    10 10 15 15 9 stickerState sampleSticker 8 8
    (by rfl) (by rfl)
    (by norm_num) (by norm_num)
    (by norm_num [sampleDrag]) (by norm_num [sampleDrag])
    (by norm_num [sampleDrag, gridRow]) (by norm_num [sampleDrag, gridRow])
    (by decide)

/-! ### Bezier formula endpoints -/

lemma bezierCoord_zero (p0 p1 p2 p3 : ℚ) : bezierCoord p0 p1 p2 p3 0 = p0 := by
  unfold bezierCoord; ring

lemma bezierCoord_one (p0 p1 p2 p3 : ℚ) : bezierCoord p0 p1 p2 p3 1 = p3 := by
  unfold bezierCoord; ring

/-- C9.  Flattening one cubic with `segments = 20` yields exactly 21
sample points; the i-th is `B(i/20)` of the cubic Bezier formula, so the
first equals the start point `(x0, y0)` and the last equals the end
point `(x3, y3)` — exactly, since the embedding computes in `ℚ` (the
claim's floating-point tolerance is not needed). -/
theorem C9_flatten_endpoints (x0 y0 x1 y1 x2 y2 x3 y3 : ℚ) :
    (approximateBezier x0 y0 x1 y1 x2 y2 x3 y3 20).length = 21 ∧
    (∀ i, i < 21 →
      (approximateBezier x0 y0 x1 y1 x2 y2 x3 y3 20).get? i
        = some (bezierCoord x0 x1 x2 x3 ((i : ℚ) / 20),
                bezierCoord y0 y1 y2 y3 ((i : ℚ) / 20))) ∧
    (approximateBezier x0 y0 x1 y1 x2 y2 x3 y3 20).head? = some (x0, y0) ∧
    (approximateBezier x0 y0 x1 y1 x2 y2 x3 y3 20).getLast? = some (x3, y3) := by
  have hget : ∀ i, i < 21 →
      (approximateBezier x0 y0 x1 y1 x2 y2 x3 y3 20).get? i
        = some (bezierCoord x0 x1 x2 x3 ((i : ℚ) / 20),
                bezierCoord y0 y1 y2 y3 ((i : ℚ) / 20)) := by
    intro i hi
    unfold approximateBezier
    rw [List.get?_map, List.get?_range hi]
    norm_num
  have hlen : (approximateBezier x0 y0 x1 y1 x2 y2 x3 y3 20).length = 21 := by
    simp [approximateBezier]
  refine ⟨hlen, hget, ?_, ?_⟩
  · rw [List.head?_eq_getElem?, ← List.get?_eq_getElem?, hget 0 (by omega)]
    norm_num [bezierCoord_zero]
  · rw [List.getLast?_eq_get?, hlen, hget 20 (by omega)]
    norm_num [bezierCoord_one]

/-- C9 witness: the sample list of a concrete curve, evaluated at
index 3. -/
theorem C9_witness :
    (approximateBezier 0 0 1 2 3 4 5 6 20).get? 3
      = some (bezierCoord 0 1 3 5 ((3 : ℚ) / 20),
              bezierCoord 0 2 4 6 ((3 : ℚ) / 20)) :=
  (C9_flatten_endpoints 0 0 1 2 3 4 5 6).2.1 3 (by omega)

/-! ### Outbound operations emitted by remote replay -/

/-- The `SyncOperation` that the local mutation dispatched by
`applyRemoteChanges` for `op` itself passes to `queueSync` (`none` when
the dispatch is a no-op: an `update` on the handwriting layer, which has
no update function, or a payload whose shape does not match). -/
def emittedBy (now : Nat) (op : SyncOperation) : Option SyncOperation :=
  match op.type, op.layer, op.data with
  | .create, .events, .eventData e =>
      some { type := .create, layer := .events, entityId := e.id,
             data := .eventData e, timestamp := now }
  | .create, .decorations, .decorationData d =>
      some { type := .create, layer := .decorations, entityId := d.id,
             data := .decorationData d, timestamp := now }
  | .create, .handwriting, .strokeData st =>
      some { type := .create, layer := .handwriting, entityId := st.id,
             data := .strokeData st, timestamp := now }
  | .create, .tasks, .taskData t =>
      some { type := .create, layer := .tasks, entityId := t.id,
             data := .taskData t, timestamp := now }
  | .update, .events, .eventPatch p =>
      some { type := .update, layer := .events, entityId := op.entityId,
             data := .eventPatch p, timestamp := now }
  | .update, .decorations, .decorationPatch p =>
      some { type := .update, layer := .decorations, entityId := op.entityId,
             data := .decorationPatch p, timestamp := now }
  | .update, .tasks, .taskPatch p =>
      some { type := .update, layer := .tasks, entityId := op.entityId,
             data := .taskPatch p, timestamp := now }
  | .delete, l, _ =>
      some { type := .delete, layer := l, entityId := op.entityId,
             data := .null, timestamp := now }
  | _, _, _ => none

/-- Whether the `applyRemoteChanges` dispatch for `op` reaches a local
mutation at all: every create and delete does, and every update except
on the handwriting layer (which has no update case). -/
def replayEnqueues (op : SyncOperation) : Bool :=
  match op.type, op.layer with
  | .update, .handwriting => false
  | _, _ => true

/-- Payload well-formedness: the shape of `op.data` matches `op.type`
and `op.layer`, as holds for every operation the store itself emits
(the field is untyped in the source). -/
def wfOpData (op : SyncOperation) : Bool :=
  match op.type, op.layer, op.data with
  | .create, .events, .eventData _ => true
  | .create, .decorations, .decorationData _ => true
  | .create, .handwriting, .strokeData _ => true
  | .create, .tasks, .taskData _ => true
  | .update, .events, .eventPatch _ => true
  | .update, .decorations, .decorationPatch _ => true
  | .update, .tasks, .taskPatch _ => true
  | .update, .handwriting, _ => true
  | .delete, _, .null => true
  | _, _, _ => false

lemma applyRemoteOp_syncQueue (now : Nat) (s : AppState) (op : SyncOperation) :
    (applyRemoteOp now s op).syncQueue
      = s.syncQueue ++ (emittedBy now op).toList := by
  obtain ⟨ty, l, eid, data, ts⟩ := op
  cases ty <;> cases l <;> cases data <;>
    simp [applyRemoteOp, emittedBy, addEvent, addDecoration, addStroke, addTask,
          updateEvent, updateDecoration, updateTask,
          deleteEvent, deleteDecoration, deleteStroke, deleteTask, queueSync]

lemma applyRemoteChanges_syncQueue (ops : List SyncOperation) (now : Nat)
    (s : AppState) :
    (applyRemoteChanges ops now s).syncQueue
      = s.syncQueue ++ ops.filterMap (emittedBy now) := by
  induction ops generalizing s with
  | nil => simp [applyRemoteChanges]
  | cons op rest ih =>
    show (applyRemoteChanges rest now (applyRemoteOp now s op)).syncQueue = _
    rw [ih (applyRemoteOp now s op), applyRemoteOp_syncQueue]
    rw [List.filterMap_cons]
    cases emittedBy now op <;> simp

lemma emittedBy_isSome_of_wf (now : Nat) (op : SyncOperation)
    (h : wfOpData op = true) :
    (emittedBy now op).isSome = replayEnqueues op := by
  obtain ⟨ty, l, eid, data, ts⟩ := op
  cases ty <;> cases l <;> cases data <;>
    simp_all [wfOpData, emittedBy, replayEnqueues]

lemma filterMap_emittedBy_length (now : Nat) : ∀ (ops : List SyncOperation),
    (∀ op ∈ ops, wfOpData op = true) →
    (ops.filterMap (emittedBy now)).length = (ops.filter replayEnqueues).length := by
  intro ops
  induction ops with
  | nil => intro _; rfl
  | cons op rest ih =>
    intro hwf
    have hop := hwf op (List.mem_cons_self ..)
    have hrest := fun o ho => hwf o (List.mem_cons_of_mem _ ho)
    have hsome := emittedBy_isSome_of_wf now op hop
    rw [List.filterMap_cons, List.filter_cons]
    by_cases hre : replayEnqueues op = true
    · obtain ⟨v, hv⟩ : ∃ v, emittedBy now op = some v :=
        Option.isSome_iff_exists.mp (by rw [hsome, hre])
      rw [hv, if_pos hre]
      simp [ih hrest]
    · have hnone : emittedBy now op = none :=
        Option.not_isSome_iff_eq_none.mp (by rw [hsome]; simpa using hre)
      rw [hnone, if_neg hre]
      exact ih hrest

/-- C10.  Because `applyRemoteChanges` replays inbound operations
through the same local mutation functions, the sync queue after a replay
is the old queue extended by exactly the operations those local
mutations enqueue — one per applied operation: for well-shaped payloads,
one per create, one per delete, one per update on the events,
decorations or tasks layers (an update on the handwriting layer is
dispatched to no mutation and enqueues nothing). -/
theorem C10_replay_enqueues_outbound (ops : List SyncOperation) (now : Nat)
    (s : AppState) (hwf : ∀ op ∈ ops, wfOpData op = true) :
    (applyRemoteChanges ops now s).syncQueue
      = s.syncQueue ++ ops.filterMap (emittedBy now) ∧
    (ops.filterMap (emittedBy now)).length
      = (ops.filter replayEnqueues).length :=
  ⟨applyRemoteChanges_syncQueue ops now s,
   filterMap_emittedBy_length now ops hwf⟩

/-- C10 witness: replaying one well-formed remote `create` on the
initial store appends exactly one outbound operation. -/
theorem C10_witness :
    (applyRemoteChanges [sampleCreateOp] 7 initialState).syncQueue
      = initialState.syncQueue ++ [sampleCreateOp].filterMap (emittedBy 7) ∧
    ([sampleCreateOp].filterMap (emittedBy 7)).length
      = ([sampleCreateOp].filter replayEnqueues).length :=
  C10_replay_enqueues_outbound [sampleCreateOp] 7 initialState (by decide)

end Planbook
